import Mathlib

/-!
Verification of the dragonbear-os/router specification against a shallow
embedding of its three source files:

* `src/apollo-router/src/spec/selection.rs` — the Selection model and
  `Selection::from_ast` (recursion-limited AST → Selection conversion,
  `@skip` / `@include` directive parsing).
* `src/apollo-router-core/src/services/execution_service.rs` — the
  execution stage.
* `src/apollo-router/src/plugins/coprocessor.rs` — the coprocessor
  externalization plugin (header codec, envelope validation, the router
  request/response stages).

Rust `Result` is embedded as `Except`, `Option` as `Option`, `HashMap`
iteration as association lists, machine integers as `Nat` (no arithmetic
overflows anywhere near the translated code paths).  Types that live
outside the three source files (`FieldType`, the envelope `Externalizable`,
`Control`, `PipelineStep`, `graphql::Response`) are modelled from the spec,
as flagged in their doc comments.
-/

/-! ## Selection model — src/apollo-router/src/spec/selection.rs -/

/-- Modelled from the spec (§3 DATA MODEL, "FieldType"): the repository's
`FieldType` lives outside `src/`; the spec exposes named types, list /
non-null wrappers, the five builtin scalars and introspection types.
Constructor names are lowercased to avoid clashing with the Lean types
`String`, `List`, `Int`, `Float` and `Id`. -/
inductive FieldType where
  | named (name : String)
  | list (inner : FieldType)
  | nonNull (inner : FieldType)
  | string
  | int
  | float
  | id
  | boolean
  | introspection (name : String)

/-- Modelled from the spec: `is_builtin_scalar()` is "true for types whose
values have no sub-selection", i.e. the five builtin scalars. -/
def FieldType.is_builtin_scalar : FieldType → Bool
  | FieldType.string => true
  | FieldType.int => true
  | FieldType.float => true
  | FieldType.id => true
  | FieldType.boolean => true
  | _ => false

/-- Modelled from the spec: `inner_type_name()` "returns the named type
stripped of list/non-null wrappers, if any". -/
def FieldType.inner_type_name : FieldType → Option String
  | FieldType.named name => some name
  | FieldType.introspection name => some name
  | FieldType.list inner => inner.inner_type_name
  | FieldType.nonNull inner => inner.inner_type_name
  | _ => none

/-- Modelled from the spec: the `Display` rendering of a `FieldType`, used
only inside the `InvalidType` error payload (which no claim inspects). -/
def FieldType.toString : FieldType → String
  | FieldType.named name => name
  | FieldType.introspection name => name
  | FieldType.list inner => "[" ++ inner.toString ++ "]"
  | FieldType.nonNull inner => inner.toString ++ "!"
  | FieldType.string => "String"
  | FieldType.int => "Int"
  | FieldType.float => "Float"
  | FieldType.id => "ID"
  | FieldType.boolean => "Boolean"

/-- A named object or interface type of the schema, exposing `field`
lookup as used by `Selection::from_ast`. -/
structure ObjectTypeDef where
  fields : List (String × FieldType)

/-- `ty.field(&field_name)` — look the field up on the type. -/
def ObjectTypeDef.field (ty : ObjectTypeDef) (field_name : String) : Option FieldType :=
  ty.fields.lookup field_name

/-- The slice of `Schema` read by `Selection::from_ast`: the object type
and interface dictionaries. -/
structure Schema where
  object_types : List (String × ObjectTypeDef)
  interfaces : List (String × ObjectTypeDef)

/-- `SpecError` (the two variants surfaced by `Selection::from_ast`). -/
inductive SpecError where
  | RecursionLimitExceeded
  | InvalidType (name : String)

/-- `Skip` — parsed `@skip` directive condition (selection.rs lines 308-313). -/
inductive Skip where
  | Yes
  | No
  | Variable (name : String)

/-- `Skip::statically_skipped` (selection.rs lines 325-327). -/
def Skip.statically_skipped : Skip → Bool
  | Skip.Yes => true
  | _ => false

/-- `Include` — parsed `@include` directive condition (selection.rs lines 367-372). -/
inductive Include where
  | Yes
  | No
  | Variable (name : String)

/-- `Include::statically_skipped` (selection.rs lines 384-386). -/
def Include.statically_skipped : Include → Bool
  | Include.No => true
  | _ => false

/-- An `apollo_parser::ast::Value` as far as directive parsing inspects it:
a boolean literal, a variable, or anything else. -/
inductive AstValue where
  | boolean (b : Bool)
  | variable_ (name : String)
  | other

/-- An `apollo_parser::ast::Directive`: a name and the argument list
(argument name paired with its value). -/
structure AstDirective where
  name : String
  arguments : List (String × AstValue)

/-- An `apollo_parser::ast::Selection`.  Fields the Rust code unwraps with
`expect` (present in every well-formed parse) are embedded as required;
genuinely optional nodes stay `Option`.  `alias_` avoids the Lean keyword. -/
inductive AstSelection where
  | field (alias_ : Option String) (name : String)
      (directives : Option (List AstDirective))
      (selection_set : Option (List AstSelection))
  | inlineFragment (type_condition : Option String)
      (directives : Option (List AstDirective))
      (selection_set : List AstSelection)
  | fragmentSpread (name : String) (directives : Option (List AstDirective))

/-- The directive list of any selection variant. -/
def AstSelection.directives : AstSelection → Option (List AstDirective)
  | AstSelection.field _ _ ds _ => ds
  | AstSelection.inlineFragment _ ds _ => ds
  | AstSelection.fragmentSpread _ ds => ds

/-- `Selection` — the typed selection tree (selection.rs lines 6-30).
`incl` stands for the Rust field `include` (a Lean keyword). -/
inductive Selection where
  | Field (name : String) (alias_ : Option String)
      (selection_set : Option (List Selection)) (field_type : FieldType)
      (skip : Skip) (incl : Include)
  | InlineFragment (type_condition : String) (skip : Skip) (incl : Include)
      (known_type : Bool) (selection_set : List Selection)
  | FragmentSpread (name : String) (known_type : Option String)
      (skip : Skip) (incl : Include)

/-- `parse_skip` (selection.rs lines 271-306): recognize `@skip(if: ...)`;
only the first argument of the directive is examined. -/
def parse_skip (directive : AstDirective) : Option Skip :=
  if directive.name = "skip" then
    match directive.arguments.head? with
    | some argument =>
      if argument.1 = "if" then
        match argument.2 with
        | AstValue.boolean true => some Skip.Yes
        | AstValue.boolean false => some Skip.No
        | AstValue.variable_ v => some (Skip.Variable v)
        | AstValue.other => none
      else none
    | none => none
  else none

/-- `parse_include` (selection.rs lines 330-365). -/
def parse_include (directive : AstDirective) : Option Include :=
  if directive.name = "include" then
    match directive.arguments.head? with
    | some argument =>
      if argument.1 = "if" then
        match argument.2 with
        | AstValue.boolean true => some Include.Yes
        | AstValue.boolean false => some Include.No
        | AstValue.variable_ v => some (Include.Variable v)
        | AstValue.other => none
      else none
    | none => none
  else none

/-- The `for directive in directives` loop of `from_ast`: first directive
that `parse_skip` accepts wins, default `Skip::No`. -/
def scan_skip : List AstDirective → Skip
  | [] => Skip.No
  | d :: rest =>
    match parse_skip d with
    | some skip => skip
    | none => scan_skip rest

/-- `field.directives().map(...).unwrap_or(Skip::No)` of `from_ast`. -/
def directives_skip : Option (List AstDirective) → Skip
  | none => Skip.No
  | some ds => scan_skip ds

/-- The `for directive in directives` loop of `from_ast` for `@include`:
first directive that `parse_include` accepts wins, default `Include::Yes`. -/
def scan_include : List AstDirective → Include
  | [] => Include.Yes
  | d :: rest =>
    match parse_include d with
    | some incl => incl
    | none => scan_include rest

/-- `field.directives().map(...).unwrap_or(Include::Yes)` of `from_ast`. -/
def directives_include : Option (List AstDirective) → Include
  | none => Include.Yes
  | some ds => scan_include ds

/-- `RECURSION_LIMIT` (selection.rs line 42). -/
def RECURSION_LIMIT : Nat := 512

/-- The `let field_type = ...` block of the `Field` arm of `from_ast`
(selection.rs lines 89-114): introspection special cases by field name,
then field lookup on the enclosing type's inner named type — first among
object types, then among interfaces; absence is `InvalidType`. -/
def resolve_field_type (current_type : FieldType) (schema : Schema)
    (field_name : String) : Except SpecError FieldType :=
  if field_name = "__typename" then Except.ok FieldType.string
  else if field_name = "__schema" then Except.ok (FieldType.introspection "__Schema")
  else if field_name = "__type" then Except.ok (FieldType.introspection "__Type")
  else
    match current_type.inner_type_name.bind (fun type_name =>
      Option.orElse
        ((schema.object_types.lookup type_name).bind
          (fun ty => ty.field field_name))
        (fun _ => (schema.interfaces.lookup type_name).bind
          (fun ty => ty.field field_name))) with
    | some ft => Except.ok ft
    | none => Except.error (SpecError.InvalidType current_type.toString)

mutual
/-- `Selection::from_ast` (selection.rs lines 33-268): recursion-limited
conversion of one AST selection, parameterized by the enclosing type and
a depth counter.  `Ok(None)` encodes a statically skipped selection. -/
def from_ast (selection : AstSelection) (current_type : FieldType) (schema : Schema)
    (count : Nat) : Except SpecError (Option Selection) :=
  if RECURSION_LIMIT < count then
    Except.error SpecError.RecursionLimitExceeded
  else
    let count := count + 1
    match selection with
    | AstSelection.field alias_ field_name directives selSet =>
      let skip := directives_skip directives
      if skip.statically_skipped then Except.ok none
      else
        let incl := directives_include directives
        if incl.statically_skipped then Except.ok none
        else
          match resolve_field_type current_type schema field_name with
          | Except.error e => Except.error e
          | Except.ok field_type =>
            let selection_set_res : Except SpecError (Option (List Selection)) :=
              if field_type.is_builtin_scalar then Except.ok none
              else
                match selSet with
                | none => Except.ok none
                | some sels =>
                  match from_ast_list sels field_type schema count with
                  | Except.error e => Except.error e
                  | Except.ok converted => Except.ok (some converted.reduceOption)
            match selection_set_res with
            | Except.error e => Except.error e
            | Except.ok selection_set =>
              Except.ok (some (Selection.Field field_name alias_ selection_set
                field_type skip incl))
    | AstSelection.inlineFragment type_condition directives sels =>
      let skip := directives_skip directives
      if skip.statically_skipped then Except.ok none
      else
        let incl := directives_include directives
        if incl.statically_skipped then Except.ok none
        else
          match Option.orElse type_condition
              (fun _ => current_type.inner_type_name) with
          | none => Except.error (SpecError.InvalidType current_type.toString)
          | some tc =>
            let fragment_type := FieldType.named tc
            match from_ast_list sels fragment_type schema count with
            | Except.error e => Except.error e
            | Except.ok converted =>
              let known_type := current_type.inner_type_name == some tc
              Except.ok (some (Selection.InlineFragment tc skip incl known_type
                converted.reduceOption))
    | AstSelection.fragmentSpread fragment_name directives =>
      let skip := directives_skip directives
      if skip.statically_skipped then Except.ok none
      else
        let incl := directives_include directives
        if incl.statically_skipped then Except.ok none
        else
          Except.ok (some (Selection.FragmentSpread fragment_name
            current_type.inner_type_name skip incl))

/-- The `selection_set.selections().map(from_ast).collect::<Result<Vec<_>,_>>()`
pattern: convert children left to right, stopping at the first error. -/
def from_ast_list (selections : List AstSelection) (current_type : FieldType)
    (schema : Schema) (count : Nat) : Except SpecError (List (Option Selection)) :=
  match selections with
  | [] => Except.ok []
  | s :: rest =>
    match from_ast s current_type schema count with
    | Except.error e => Except.error e
    | Except.ok converted =>
      match from_ast_list rest current_type schema count with
      | Except.error e => Except.error e
      | Except.ok others => Except.ok (converted :: others)
end

mutual
/-- Maximum nesting depth of an AST selection: a leaf selection has depth 1
and each nested selection set adds one level. -/
def AstSelection.depth : AstSelection → Nat
  | AstSelection.field _ _ _ none => 1
  | AstSelection.field _ _ _ (some sels) => 1 + depth_list sels
  | AstSelection.inlineFragment _ _ sels => 1 + depth_list sels
  | AstSelection.fragmentSpread _ _ => 1

/-- Depth of the deepest selection in a list (0 for the empty list). -/
def depth_list : List AstSelection → Nat
  | [] => 0
  | s :: rest => max s.depth (depth_list rest)
end

/-- A schema with no object types and no interfaces. -/
def emptySchema : Schema := { object_types := [], interfaces := [] }

/-- The directive `@skip(if: true)`. -/
def skipTrueDirective : AstDirective :=
  { name := "skip", arguments := [("if", AstValue.boolean true)] }

/-- The directive `@include(if: false)`. -/
def includeFalseDirective : AstDirective :=
  { name := "include", arguments := [("if", AstValue.boolean false)] }

/-- A tower of `n + 1` nested inline fragments with explicit type condition
`T` and no directives: a family of ASTs whose every selection is traversed
by `from_ast` (inline fragments recurse unconditionally). -/
def towerIF : Nat → AstSelection
  | 0 => AstSelection.inlineFragment (some "T") none []
  | n + 1 => AstSelection.inlineFragment (some "T") none [towerIF n]

/-- A field annotated `@skip(if: true)` carrying a 600-level selection set:
nesting depth 601, statically skipped at the root. -/
def deepSkippedField : AstSelection :=
  AstSelection.field none "a" (some [skipTrueDirective]) (some [towerIF 599])

/-- Schema for the C2 counterexample: `Query.obj : Obj` where `Obj` is an
object type (not a scalar) with one scalar field. -/
def c2Schema : Schema :=
  { object_types :=
      [("Query", { fields := [("obj", FieldType.named "Obj")] }),
       ("Obj", { fields := [("x", FieldType.string)] })],
    interfaces := [] }

/-! ## Header codec — coprocessor.rs lines 923-949

A native `http::HeaderMap` is embedded as the list of its (name, value)
pairs in iteration order (the `http` crate yields the values of one name
adjacently, in insertion order; the proofs below never rely on adjacency).
Header values are embedded as `String`: a value stored in a `HeaderMap`
that is valid UTF-8 is exactly a string over the header-value alphabet,
so the UTF-8 side condition of the claim is absorbed by the type and the
`String::from_utf8` call in `externalize_header_map` cannot fail.  The
character-level validity predicates model `HeaderName::from_str` /
`HeaderValue::from_str` of the `http` crate (names: lowercase tokens as
produced by `HeaderName::as_str`; values: visible bytes plus tab). -/

/-- Characters accepted in a (lowercased) header name. -/
def isValidHeaderNameChar (ch : Char) : Bool :=
  ch.isLower || ch.isDigit || ch == '-' || ch == '_' || ch == '.'

/-- `HeaderName::from_str` accepts the string (model). -/
def isValidHeaderName (s : String) : Bool :=
  !s.isEmpty && s.data.all isValidHeaderNameChar

/-- Characters accepted in a header value: tab or a byte in 32..=255
except DEL. -/
def isValidHeaderValueChar (ch : Char) : Bool :=
  ch == '\t' || (32 ≤ ch.toNat && ch.toNat != 127)

/-- `HeaderValue::from_str` accepts the string (model). -/
def isValidHeaderValue (s : String) : Bool :=
  s.data.all isValidHeaderValueChar

/-- `output.entry(k).or_insert_with(Vec::new).push(v)` on an association
list standing for the `HashMap<String, Vec<String>>`: append `v` to the
entry of `k`, creating it if absent. -/
def pushEntry : List (String × List String) → String → String → List (String × List String)
  | [], k, v => [(k, [v])]
  | (k0, vs) :: rest, k, v =>
    if k0 == k then (k0, vs ++ [v]) :: rest
    else (k0, vs) :: pushEntry rest k v

/-- `externalize_header_map` (coprocessor.rs lines 924-934): convert a
`HeaderMap` into a `HashMap<String, Vec<String>>` by pushing each
(name, value) pair in iteration order.  Total here because values are
already `String` (see the section comment). -/
def externalize_header_map (input : List (String × String)) : List (String × List String) :=
  input.foldl (fun output kv => pushEntry output kv.1 kv.2) []

/-- The inner `for v in values` loop of `internalize_header_map`: parse
the name and the value, propagating the first error. -/
def appendHeaderValues (k : String) : List String → Except String (List (String × String))
  | [] => Except.ok []
  | v :: rest =>
    if isValidHeaderName k then
      if isValidHeaderValue v then
        match appendHeaderValues k rest with
        | Except.error e => Except.error e
        | Except.ok tail => Except.ok ((k, v) :: tail)
      else Except.error "invalid HTTP header value"
    else Except.error "invalid HTTP header name"

/-- `internalize_header_map` (coprocessor.rs lines 937-949): convert a
`HashMap<String, Vec<String>>` back into a `HeaderMap`, appending every
(name, value) pair in order. -/
def internalize_header_map : List (String × List String) → Except String (List (String × String))
  | [] => Except.ok []
  | (k, values) :: rest =>
    match appendHeaderValues k values with
    | Except.error e => Except.error e
    | Except.ok pairs =>
      match internalize_header_map rest with
      | Except.error e => Except.error e
      | Except.ok tail => Except.ok (pairs ++ tail)

/-- `HeaderMap::get_all`: the ordered list of values under one name.
Two embedded header maps are equal as `http::HeaderMap`s iff `getAll`
agrees on every name. -/
def getAll : List (String × String) → String → List String
  | [], _ => []
  | (k0, v) :: rest, k => if k0 == k then v :: getAll rest k else getAll rest k

/-- Every pair of the header map is a valid (name, value) pair — true by
construction for any native `HeaderMap`. -/
def wellFormedHeaderMap (h : List (String × String)) : Bool :=
  h.all (fun kv => isValidHeaderName kv.1 && isValidHeaderValue kv.2)

/-- Validity of a multimap: every entry name is valid and so is every
value under it. -/
def wfMM (m : List (String × List String)) : Bool :=
  m.all (fun kvs => isValidHeaderName kvs.1 && kvs.2.all isValidHeaderValue)

/-- Flatten a multimap back to (name, value) pairs, in entry order. -/
def flattenMM : List (String × List String) → List (String × String)
  | [] => []
  | (k, vs) :: rest => vs.map (fun v => (k, v)) ++ flattenMM rest

/-- The value list stored under a key of the multimap ([] if absent). -/
def lookupVs (m : List (String × List String)) (k : String) : List String :=
  (m.lookup k).getD []

/-- The keys of the multimap, in order. -/
def keysMM (m : List (String × List String)) : List String := m.map Prod.fst

/-! ## Coprocessor externalization — coprocessor.rs

The HTTP transport is injected exactly as the Rust code injects its
generic `http_client`: the model takes a function from the outbound
envelope to the coprocessor's reply (or a transport error).  Router-level
bodies are opaque bytes of some type `β` equipped with a `JsonCodec`
standing for `serde_json::from_slice` / `serde_json::to_vec`.  The
`enter_active_request` / `leave_active_request` lifecycle hooks and the
tracing spans have no observable effect on the data flow and are not
modelled. -/

/-- A JSON value (`serde_json::Value`); objects keep field order. -/
inductive Json where
  | null
  | bool (b : Bool)
  | num (n : Int)
  | str (s : String)
  | arr (elems : List Json)
  | obj (fields : List (String × Json))

/-- Modelled from the spec (§6 "Pipeline stage strings"): the
`PipelineStep` enum lives outside `src/`. -/
inductive PipelineStep where
  | RouterRequest
  | RouterResponse
  | SubgraphRequest
  | SubgraphResponse

/-- The `Display` strings of `PipelineStep`, exactly as in spec §6. -/
def PipelineStep.toString : PipelineStep → String
  | PipelineStep.RouterRequest => "RouterRequest"
  | PipelineStep.RouterResponse => "RouterResponse"
  | PipelineStep.SubgraphRequest => "SubgraphRequest"
  | PipelineStep.SubgraphResponse => "SubgraphResponse"

/-- The two request-side pipeline steps. -/
def PipelineStep.isRequest : PipelineStep → Bool
  | PipelineStep.RouterRequest => true
  | PipelineStep.SubgraphRequest => true
  | _ => false

/-- Rust `str::ends_with`. -/
def ends_with (s suffix : String) : Bool :=
  List.isSuffixOf suffix.data s.data

/-- Modelled from the spec (§3 "Control", §6 "Control values"): `Continue`
or `Break` with an optional status; the type lives outside `src/`. -/
inductive Control where
  | Continue
  | Break (status_code : Option Nat)

/-- `Control::default()` is `Continue` (spec §4.E step 2). -/
def Control.default : Control := Control.Continue

/-- Modelled from the spec (§3): conversion to an HTTP status "yields 200
when unspecified on Break, and must succeed (i.e. 100-599) to be usable;
otherwise an error is raised". -/
def Control.get_http_status : Control → Except String Nat
  | Control.Continue => Except.ok 200
  | Control.Break none => Except.ok 200
  | Control.Break (some code) =>
    if 100 ≤ code && code ≤ 599 then Except.ok code
    else Except.error "invalid HTTP status code"

/-- Modelled from the spec (§6 "Envelope version"): "a single integer
constant"; only equality with itself matters to the claims. -/
def EXTERNALIZABLE_VERSION : Nat := 1

/-- Modelled from the spec (§4.F): the wire envelope, generic over the
context type the router threads through (`Externalizable<serde_json::Value>`
in the Rust code, whose body field is arbitrary JSON). -/
structure Externalizable (Ctx : Type) where
  version : Nat
  stage : String
  control : Option Control
  id : Option String
  headers : Option (List (String × List String))
  body : Option Json
  context : Option Ctx
  sdl : Option String
  uri : Option String
  path : Option String
  method : Option String
  service_name : Option String
  status_code : Option Nat

/-- `validate_coprocessor_output` (coprocessor.rs lines 898-921): check
the version, the stage string, and — when the received stage string ends
in "Request" — the presence of `control`. -/
def validate_coprocessor_output {Ctx : Type} (co_processor_output : Externalizable Ctx)
    (expected_step : PipelineStep) : Except String Unit :=
  if co_processor_output.version != EXTERNALIZABLE_VERSION then
    Except.error "Coprocessor returned the wrong version"
  else if co_processor_output.stage != expected_step.toString then
    Except.error "Coprocessor returned the wrong stage"
  else if co_processor_output.control.isNone && ends_with co_processor_output.stage "Request" then
    Except.error "Coprocessor response is missing the control parameter in a Request stage"
  else Except.ok ()

/-- A GraphQL error (`crate::graphql::Error`, modelled from the spec):
only the message and the extensions (which carry the extension code) are
observable to the claims. -/
structure GraphqlError where
  message : String
  extensions : List (String × Json)

/-- A GraphQL response (`crate::graphql::Response`, modelled from the
spec §4.E step 6). -/
structure GraphqlResponse where
  label : Option String
  data : Option Json
  errors : List GraphqlError
  extensions : List (String × Json)

/-- Modelled from the spec: deserializing a `graphql::Error` from JSON —
an object with a string `message` and an optional `extensions` object. -/
def graphqlErrorFromJson : Json → Option GraphqlError
  | Json.obj fs =>
    match fs.lookup "message" with
    | some (Json.str m) =>
      match fs.lookup "extensions" with
      | none => some { message := m, extensions := [] }
      | some (Json.obj e) => some { message := m, extensions := e }
      | some _ => none
    | _ => none
  | _ => none

/-- Modelled from the spec ("decode the envelope body as a GraphQL
response"): `serde_json::from_value::<graphql::Response>` — only JSON
objects decode; absent fields default; a mis-typed field fails. -/
def graphqlResponseFromJson : Json → Option GraphqlResponse
  | Json.obj fs =>
    match (match fs.lookup "label" with
           | none => some none
           | some (Json.str s) => some (some s)
           | some _ => none) with
    | none => none
    | some label =>
      match (match fs.lookup "errors" with
             | none => some []
             | some (Json.arr es) => es.mapM graphqlErrorFromJson
             | some _ => none) with
      | none => none
      | some errors =>
        match (match fs.lookup "extensions" with
               | none => some []
               | some (Json.obj e) => some e
               | some _ => none) with
        | none => none
        | some extensions =>
          some { label := label, data := fs.lookup "data",
                 errors := errors, extensions := extensions }
  | _ => none

/-- Serialize a `graphql::Error` to JSON. -/
def GraphqlError.toJson (e : GraphqlError) : Json :=
  Json.obj [("message", Json.str e.message), ("extensions", Json.obj e.extensions)]

/-- Serialize a `graphql::Response` to JSON. -/
def GraphqlResponse.toJson (r : GraphqlResponse) : Json :=
  Json.obj
    ((match r.label with | some l => [("label", Json.str l)] | none => []) ++
     (match r.data with | some d => [("data", d)] | none => []) ++
     [("errors", Json.arr (r.errors.map GraphqlError.toJson)),
      ("extensions", Json.obj r.extensions)])

/-- The substitute response built when the `Break` body fails to
deserialize (coprocessor.rs lines 538-547): a single error with extension
code `EXERNAL_DESERIALIZATION_ERROR` (sic — the typo is the code's). -/
def deserialization_failure_response : GraphqlResponse :=
  { label := none
    data := none
    errors := [{ message := "could not deserialize coprocessor output body"
                 extensions := [("code", Json.str "EXERNAL_DESERIALIZATION_ERROR")] }]
    extensions := [] }

/-- `RouterRequestConf` (coprocessor.rs lines 155-168): the request-side
send-filter flags. -/
structure RouterRequestConf where
  headers : Bool
  context : Bool
  body : Bool
  sdl : Bool
  path : Bool
  method : Bool

/-- `RouterRequestConf::default()`: all flags off. -/
def RouterRequestConf.default : RouterRequestConf :=
  { headers := false, context := false, body := false,
    sdl := false, path := false, method := false }

/-- `RouterResponseConf` (coprocessor.rs lines 173-184). -/
structure RouterResponseConf where
  headers : Bool
  context : Bool
  body : Bool
  sdl : Bool
  status_code : Bool

/-- `RouterResponseConf::default()`: all flags off. -/
def RouterResponseConf.default : RouterResponseConf :=
  { headers := false, context := false, body := false,
    sdl := false, status_code := false }

/-- `serde_json::from_slice` / `serde_json::to_vec` over the opaque
router-level body type `β` (bytes), injected like the HTTP client. -/
structure JsonCodec (β : Type) where
  parse : β → Option Json
  render : Json → β

/-- `router::Request`: the HTTP parts read by the router stages plus the
per-request context. -/
structure RouterRequest (β Ctx : Type) where
  headers : List (String × String)
  uri : String
  method : String
  body : β
  context : Ctx

/-- `router::Response`: status, headers, body bytes and context. -/
structure RouterResponse (β Ctx : Type) where
  status : Nat
  headers : List (String × String)
  body : β
  context : Ctx

/-- `std::ops::ControlFlow` as used by `AsyncCheckpoint`: `Break res`
short-circuits (the downstream stage is not called), `Continue req`
forwards `req` downstream. -/
inductive CoControlFlow (B C : Type) where
  | Break (response : B)
  | Continue (request : C)

/-- The envelope sent at the RouterRequest stage (coprocessor.rs lines
482-516): for each enabled flag the corresponding field, null otherwise;
`control = Continue`, `method` always sent; parse failure of the body is
tolerated (`transpose().unwrap_or_default()` yields `None`).  The
best-effort trace id is environment-dependent and modelled as absent. -/
def routerRequestPayload {β Ctx : Type} (codec : JsonCodec β) (sdl : String)
    (request : RouterRequest β Ctx) (request_config : RouterRequestConf) :
    Externalizable Ctx :=
  { version := EXTERNALIZABLE_VERSION
    stage := PipelineStep.RouterRequest.toString
    control := some Control.default
    id := none
    headers := if request_config.headers
               then some (externalize_header_map request.headers) else none
    body := if request_config.body then codec.parse request.body else none
    context := if request_config.context then some request.context else none
    sdl := if request_config.sdl then some sdl else none
    uri := none
    path := if request_config.path then some request.uri else none
    method := some request.method
    service_name := none
    status_code := none }

/-- The `Break` arm's `router::Response::builder()...build()` (coprocessor.rs
lines 549-560): a response with the given status whose body is the
serialized GraphQL response, carrying the request's context. -/
def build_router_response_from_graphql {β Ctx : Type} (codec : JsonCodec β) (code : Nat)
    (graphql_response : GraphqlResponse) (ctx : Ctx) : RouterResponse β Ctx :=
  { status := code, headers := [], body := codec.render graphql_response.toJson,
    context := ctx }

/-- `process_router_request_stage` (coprocessor.rs lines 464-592).
`http_client` maps the outbound envelope to the coprocessor reply. -/
def process_router_request_stage {β Ctx : Type} (codec : JsonCodec β)
    (http_client : Externalizable Ctx → Except String (Externalizable Ctx))
    (sdl : String) (request : RouterRequest β Ctx)
    (request_config : RouterRequestConf) :
    Except String (CoControlFlow (RouterResponse β Ctx) (RouterRequest β Ctx)) :=
  let bytes := request.body
  let payload := routerRequestPayload codec sdl request request_config
  match http_client payload with
  | Except.error e => Except.error e
  | Except.ok co_processor_output =>
    match validate_coprocessor_output co_processor_output PipelineStep.RouterRequest with
    | Except.error e => Except.error e
    | Except.ok _ =>
      match co_processor_output.control with
      | none => Except.error "unreachable: validate_coprocessor_output checked control"
      | some control =>
        match control with
        | Control.Break st =>
          match Control.get_http_status (Control.Break st) with
          | Except.error e => Except.error e
          | Except.ok code =>
            let graphql_response :=
              match graphqlResponseFromJson (co_processor_output.body.getD Json.null) with
              | some g => g
              | none => deserialization_failure_response
            let res := build_router_response_from_graphql codec code graphql_response
              request.context
            match (match co_processor_output.headers with
                   | some hs =>
                     match internalize_header_map hs with
                     | Except.error e => Except.error e
                     | Except.ok hm => Except.ok { res with headers := hm }
                   | none => Except.ok res) with
            | Except.error e => Except.error e
            | Except.ok res2 =>
              let res3 := match co_processor_output.context with
                | some ctx2 => { res2 with context := ctx2 }
                | none => res2
              Except.ok (CoControlFlow.Break res3)
        | Control.Continue =>
          let new_body := match co_processor_output.body with
            | some value => codec.render value
            | none => bytes
          let request2 := { request with body := new_body }
          let request3 := match co_processor_output.context with
            | some ctx2 => { request2 with context := ctx2 }
            | none => request2
          match co_processor_output.headers with
          | some hs =>
            match internalize_header_map hs with
            | Except.error e => Except.error e
            | Except.ok hm => Except.ok (CoControlFlow.Continue { request3 with headers := hm })
          | none => Except.ok (CoControlFlow.Continue request3)

/-- `process_router_response_stage` (coprocessor.rs lines 594-677): note
the response-side body parse uses `transpose()?`, so a parse failure is a
hard error raised before the coprocessor is called. -/
def process_router_response_stage {β Ctx : Type} (codec : JsonCodec β)
    (http_client : Externalizable Ctx → Except String (Externalizable Ctx))
    (sdl : String) (response : RouterResponse β Ctx)
    (response_config : RouterResponseConf) :
    Except String (RouterResponse β Ctx) :=
  let bytes := response.body
  let headers_to_send :=
    if response_config.headers then some (externalize_header_map response.headers) else none
  match (if response_config.body then
          match codec.parse bytes with
          | some v => Except.ok (some v)
          | none => Except.error "failed to parse the response body as JSON"
         else (Except.ok none : Except String (Option Json))) with
  | Except.error e => Except.error e
  | Except.ok body_to_send =>
    let payload : Externalizable Ctx :=
      { version := EXTERNALIZABLE_VERSION
        stage := PipelineStep.RouterResponse.toString
        control := none
        id := none
        headers := headers_to_send
        body := body_to_send
        context := if response_config.context then some response.context else none
        sdl := if response_config.sdl then some sdl else none
        uri := none
        path := none
        method := none
        service_name := none
        status_code := if response_config.status_code then some response.status else none }
    match http_client payload with
    | Except.error e => Except.error e
    | Except.ok co_processor_output =>
      match validate_coprocessor_output co_processor_output PipelineStep.RouterResponse with
      | Except.error e => Except.error e
      | Except.ok _ =>
        let new_body := match co_processor_output.body with
          | some value => codec.render value
          | none => bytes
        let response2 := { response with body := new_body }
        match (match co_processor_output.control with
               | some control =>
                 match control.get_http_status with
                 | Except.error e => Except.error e
                 | Except.ok st => Except.ok { response2 with status := st }
               | none => Except.ok response2) with
        | Except.error e => Except.error e
        | Except.ok response3 =>
          let response4 := match co_processor_output.context with
            | some ctx2 => { response3 with context := ctx2 }
            | none => response3
          match co_processor_output.headers with
          | some hs =>
            match internalize_header_map hs with
            | Except.error e => Except.error e
            | Except.ok hm => Except.ok { response4 with headers := hm }
          | none => Except.ok response4

/-- An envelope reply with the given stage string and control and nothing
else: the minimal valid coprocessor answer. -/
def minimalReply (Ctx : Type) (stage : String) (control : Option Control) :
    Externalizable Ctx :=
  { version := EXTERNALIZABLE_VERSION
    stage := stage
    control := control
    id := none
    headers := none
    body := none
    context := none
    sdl := none
    uri := none
    path := none
    method := none
    service_name := none
    status_code := none }

/-! ## Execution service — src/apollo-router-core/src/services/execution_service.rs

The planner's `QueryPlan` is opaque to the stage: it only exposes
`execute(context, service_registry, schema)`, embedded as a function
field.  The context, registry, schema and response-body types are type
parameters — the stage never inspects them. -/

namespace core

/-- An opaque `QueryPlan` exposing `execute`. -/
structure QueryPlan (Ctx Reg Sch Body : Type) where
  execute : Ctx → Reg → Sch → Body

/-- `PlannedRequest`: a query plan plus the per-request context. -/
structure PlannedRequest (Ctx Reg Sch Body : Type) where
  query_plan : QueryPlan Ctx Reg Sch Body
  context : Ctx

/-- `http::Response::new(body)`: status 200, the given body. -/
structure HttpResponse (Body : Type) where
  status : Nat
  body : Body

/-- `http::Response::new`. -/
def HttpResponse.new {Body : Type} (body : Body) : HttpResponse Body :=
  { status := 200, body := body }

/-- `RouterResponse` of apollo-router-core: an HTTP response plus the
context. -/
structure RouterResponse (Ctx Body : Type) where
  response : HttpResponse Body
  context : Ctx

/-- `ExecutionService` (execution_service.rs lines 15-21). -/
structure ExecutionService (Ctx Reg Sch Body : Type) where
  schema : Sch
  subgraph_services : Reg

/-- `ExecutionService::call` (execution_service.rs lines 40-57): await
`plan.execute`, wrap the value in `http::Response::new`, and return it
with the request's own context; the only `Ok` constructor the future can
resolve to. -/
def ExecutionService.call {Ctx Reg Sch Body : Type}
    (self : ExecutionService Ctx Reg Sch Body)
    (req : PlannedRequest Ctx Reg Sch Body) :
    Except String (RouterResponse Ctx Body) :=
  Except.ok
    { response := HttpResponse.new
        (req.query_plan.execute req.context self.subgraph_services self.schema)
      context := req.context }

end core

/-- A concrete codec over `Option Json` bodies: a body is either a JSON
value (parses to itself) or `none` (unparseable bytes). -/
def optionJsonCodec : JsonCodec (Option Json) :=
  { parse := fun b => b, render := fun v => some v }

/-- A minimal concrete router request for witnesses. -/
def sampleRequest : RouterRequest (Option Json) Unit :=
  { headers := [], uri := "/", method := "GET", body := none, context := () }

/-- A minimal concrete router response for witnesses. -/
def sampleResponse : RouterResponse (Option Json) Unit :=
  { status := 200, headers := [], body := none, context := () }

/-- The request-side send-filter with only the body flag set. -/
def bodyOnlyRequestConf : RouterRequestConf :=
  { headers := false, context := false, body := true, sdl := false, path := false,
    method := false }

/-- The response-side send-filter with only the body flag set. -/
def bodyOnlyResponseConf : RouterResponseConf :=
  { headers := false, context := false, body := true, sdl := false, status_code := false }

/-- A coprocessor reply: `control = Break(418)` with the malformed body
`42` (spec §8 scenario 6). -/
def breakReply42 : Externalizable Unit :=
  { version := EXTERNALIZABLE_VERSION
    stage := PipelineStep.RouterRequest.toString
    control := some (Control.Break (some 418))
    id := none
    headers := none
    body := some (Json.num 42)
    context := none
    sdl := none
    uri := none
    path := none
    method := none
    service_name := none
    status_code := none }

/-! ## Unfolding lemmas for `from_ast`

`from_ast` is compiled by mutual structural recursion over a nested
inductive; its automatically generated equation lemmas are impractically
large, so we prove one definitional unfolding lemma per constructor shape
by `rfl` and use those everywhere below. -/

lemma from_ast_spread_eq (nm : String) (ds : Option (List AstDirective)) (t : FieldType)
    (s : Schema) (c : Nat) :
    from_ast (AstSelection.fragmentSpread nm ds) t s c =
      (if RECURSION_LIMIT < c then Except.error SpecError.RecursionLimitExceeded
       else
        let skip := directives_skip ds
        if skip.statically_skipped then Except.ok none
        else
          let incl := directives_include ds
          if incl.statically_skipped then Except.ok none
          else Except.ok (some (Selection.FragmentSpread nm t.inner_type_name skip incl))) := rfl

lemma from_ast_inline_eq (tc : Option String) (ds : Option (List AstDirective))
    (sels : List AstSelection) (t : FieldType) (s : Schema) (c : Nat) :
    from_ast (AstSelection.inlineFragment tc ds sels) t s c =
      (if RECURSION_LIMIT < c then Except.error SpecError.RecursionLimitExceeded
       else
        let skip := directives_skip ds
        if skip.statically_skipped then Except.ok none
        else
          let incl := directives_include ds
          if incl.statically_skipped then Except.ok none
          else
            match Option.orElse tc (fun _ => t.inner_type_name) with
            | none => Except.error (SpecError.InvalidType t.toString)
            | some cond =>
              match from_ast_list sels (FieldType.named cond) s (c + 1) with
              | Except.error e => Except.error e
              | Except.ok converted =>
                Except.ok (some (Selection.InlineFragment cond skip incl
                  (t.inner_type_name == some cond) converted.reduceOption))) := rfl

lemma from_ast_field_some_eq (alias_ : Option String) (fname : String)
    (ds : Option (List AstDirective)) (sels : List AstSelection)
    (t : FieldType) (s : Schema) (c : Nat) :
    from_ast (AstSelection.field alias_ fname ds (some sels)) t s c =
      (if RECURSION_LIMIT < c then Except.error SpecError.RecursionLimitExceeded
       else
        let skip := directives_skip ds
        if skip.statically_skipped then Except.ok none
        else
          let incl := directives_include ds
          if incl.statically_skipped then Except.ok none
          else
            match resolve_field_type t s fname with
            | Except.error e => Except.error e
            | Except.ok field_type =>
              match (if field_type.is_builtin_scalar then
                      (Except.ok none : Except SpecError (Option (List Selection)))
                     else
                       match from_ast_list sels field_type s (c + 1) with
                       | Except.error e => Except.error e
                       | Except.ok converted => Except.ok (some converted.reduceOption)) with
              | Except.error e => Except.error e
              | Except.ok selection_set =>
                Except.ok (some (Selection.Field fname alias_ selection_set
                  field_type skip incl))) := rfl

lemma from_ast_field_none_eq (alias_ : Option String) (fname : String)
    (ds : Option (List AstDirective)) (t : FieldType) (s : Schema) (c : Nat) :
    from_ast (AstSelection.field alias_ fname ds none) t s c =
      (if RECURSION_LIMIT < c then Except.error SpecError.RecursionLimitExceeded
       else
        let skip := directives_skip ds
        if skip.statically_skipped then Except.ok none
        else
          let incl := directives_include ds
          if incl.statically_skipped then Except.ok none
          else
            match resolve_field_type t s fname with
            | Except.error e => Except.error e
            | Except.ok field_type =>
              match (if field_type.is_builtin_scalar then
                      (Except.ok none : Except SpecError (Option (List Selection)))
                     else Except.ok none) with
              | Except.error e => Except.error e
              | Except.ok selection_set =>
                Except.ok (some (Selection.Field fname alias_ selection_set
                  field_type skip incl))) := rfl

lemma from_ast_list_nil_eq (t : FieldType) (s : Schema) (c : Nat) :
    from_ast_list [] t s c = Except.ok [] := rfl

lemma from_ast_list_cons_eq (sel : AstSelection) (rest : List AstSelection) (t : FieldType)
    (s : Schema) (c : Nat) :
    from_ast_list (sel :: rest) t s c =
      (match from_ast sel t s c with
       | Except.error e => Except.error e
       | Except.ok converted =>
         match from_ast_list rest t s c with
         | Except.error e => Except.error e
         | Except.ok others => Except.ok (converted :: others)) := rfl

/-- Every `from_ast` call whose depth counter exceeds the limit fails
immediately, before looking at the selection. -/
lemma from_ast_guard (sel : AstSelection) (t : FieldType) (s : Schema) (c : Nat)
    (h : RECURSION_LIMIT < c) :
    from_ast sel t s c = Except.error SpecError.RecursionLimitExceeded := by
  cases sel with
  | field a nm ds ss =>
    cases ss with
    | none => rw [from_ast_field_none_eq, if_pos h]
    | some sels => rw [from_ast_field_some_eq, if_pos h]
  | inlineFragment tc ds ss => rw [from_ast_inline_eq, if_pos h]
  | fragmentSpread nm ds => rw [from_ast_spread_eq, if_pos h]

/-- On the inline-fragment tower, `from_ast` fails with
`RecursionLimitExceeded` exactly when the counter plus the tower height
passes the limit, and succeeds with a selection otherwise. -/
lemma from_ast_towerIF (n : Nat) : ∀ (c : Nat) (t : FieldType) (s : Schema),
    (512 < c + n ∧ from_ast (towerIF n) t s c = Except.error SpecError.RecursionLimitExceeded)
    ∨ (c + n ≤ 512 ∧ ∃ sel, from_ast (towerIF n) t s c = Except.ok (some sel)) := by
  induction n with
  | zero =>
    intro c t s
    by_cases h : RECURSION_LIMIT < c
    · exact Or.inl ⟨by have h5 : 512 < c := h; omega, from_ast_guard _ _ _ _ h⟩
    · have h5 : c ≤ 512 := show c ≤ RECURSION_LIMIT from Nat.not_lt.mp h
      refine Or.inr ⟨by omega, ⟨Selection.InlineFragment "T" Skip.No Include.Yes
        (t.inner_type_name == some "T") [], ?_⟩⟩
      rw [show towerIF 0 = AstSelection.inlineFragment (some "T") none [] from rfl,
        from_ast_inline_eq, if_neg h]
      simp [directives_skip, Skip.statically_skipped, directives_include,
        Include.statically_skipped, Option.orElse, from_ast_list_nil_eq, List.reduceOption]
  | succ n ih =>
    intro c t s
    by_cases h : RECURSION_LIMIT < c
    · exact Or.inl ⟨by have h5 : 512 < c := h; omega, from_ast_guard _ _ _ _ h⟩
    · have h5 : c ≤ 512 := show c ≤ RECURSION_LIMIT from Nat.not_lt.mp h
      rcases ih (c + 1) (FieldType.named "T") s with ⟨hgt, herr⟩ | ⟨hle, sel, hok⟩
      · refine Or.inl ⟨by omega, ?_⟩
        rw [show towerIF (n + 1) = AstSelection.inlineFragment (some "T") none [towerIF n] from rfl,
          from_ast_inline_eq, if_neg h]
        simp [directives_skip, Skip.statically_skipped, directives_include,
          Include.statically_skipped, Option.orElse, from_ast_list_cons_eq, herr]
      · refine Or.inr ⟨by omega, ⟨Selection.InlineFragment "T" Skip.No Include.Yes
          (t.inner_type_name == some "T") [sel], ?_⟩⟩
        rw [show towerIF (n + 1) = AstSelection.inlineFragment (some "T") none [towerIF n] from rfl,
          from_ast_inline_eq, if_neg h]
        simp [directives_skip, Skip.statically_skipped, directives_include,
          Include.statically_skipped, Option.orElse, from_ast_list_cons_eq,
          from_ast_list_nil_eq, hok, List.reduceOption]

lemma depth_towerIF (n : Nat) : (towerIF n).depth = n + 1 := by
  induction n with
  | zero => rfl
  | succ n ih =>
    simp [towerIF, AstSelection.depth, depth_list, ih]
    omega

lemma depth_field_some (a : Option String) (nm : String) (ds : Option (List AstDirective))
    (l : List AstSelection) :
    (AstSelection.field a nm ds (some l)).depth = 1 + depth_list l := by
  simp [AstSelection.depth]

lemma depth_list_cons (s : AstSelection) (rest : List AstSelection) :
    depth_list (s :: rest) = max s.depth (depth_list rest) := by
  simp [depth_list]

/-! ## Claims C1, C2, C8 — Selection construction -/

/-- C2 (amended): for every `Selection::Field` produced by `from_ast`, the
`selection_set` is `None` iff the resolved `field_type` is a builtin scalar
or the AST field carried no child selection set.  (The original claim —
`selection_set = None` iff the type is a builtin scalar — fails when the
AST omits the selection set of a composite field; see the counterexample.)
Nested `Field` nodes are produced by recursive `from_ast` calls on their
own AST nodes, so instantiating this statement covers them as well. -/
theorem claim_C2 (alias_ : Option String) (fname : String)
    (ds : Option (List AstDirective)) (ss : Option (List AstSelection))
    (t : FieldType) (s : Schema) (c : Nat)
    (nm : String) (a : Option String) (sset : Option (List Selection))
    (ft : FieldType) (sk : Skip) (inc : Include)
    (h : from_ast (AstSelection.field alias_ fname ds ss) t s c
         = Except.ok (some (Selection.Field nm a sset ft sk inc))) :
    sset = none ↔ (ft.is_builtin_scalar = true ∨ ss = none) := by
  cases ss with
  | none =>
    rw [from_ast_field_none_eq] at h
    simp only [ite_self] at h
    split at h
    · simp at h
    · split at h
      · simp at h
      · split at h
        · simp at h
        · split at h
          · simp at h
          · simp at h
            obtain ⟨h1, h2, h3, h4, h5, h6⟩ := h
            subst h3
            simp
  | some sels =>
    rw [from_ast_field_some_eq] at h
    by_cases hg : RECURSION_LIMIT < c
    · rw [if_pos hg] at h
      simp at h
    · rw [if_neg hg] at h
      by_cases hsk : (directives_skip ds).statically_skipped
      · simp [hsk] at h
      · by_cases hin : (directives_include ds).statically_skipped
        · simp [hsk, hin] at h
        · simp only [hsk, hin, Bool.false_eq_true, if_false] at h
          cases hres : resolve_field_type t s fname with
          | error e =>
            rw [hres] at h
            simp at h
          | ok ftr =>
            rw [hres] at h
            by_cases hscal : ftr.is_builtin_scalar
            · simp only [hscal, if_true] at h
              simp at h
              obtain ⟨h1, h2, h3, h4, h5, h6⟩ := h
              subst h3 h4
              simp [hscal]
            · simp only [hscal, Bool.false_eq_true, if_false] at h
              cases hlist : from_ast_list sels ftr s (c + 1) with
              | error e =>
                rw [hlist] at h
                simp at h
              | ok conv =>
                rw [hlist] at h
                simp at h
                obtain ⟨h1, h2, h3, h4, h5, h6⟩ := h
                subst h3 h4
                simp [hscal]

/-- C2 counterexample: under `c2Schema`, the AST field `obj` (composite
type `Obj`, no selection set in the AST) converts to a `Selection::Field`
with `selection_set = none` although its `field_type` is not a builtin
scalar (and names an object type of the schema, so it does not resolve to
a scalar at the schema level either) — refuting the claimed "iff". -/
theorem claim_C2_counterexample :
    from_ast (AstSelection.field none "obj" none none) (FieldType.named "Query") c2Schema 0
      = Except.ok (some (Selection.Field "obj" none none (FieldType.named "Obj")
          Skip.No Include.Yes))
    ∧ (FieldType.named "Obj").is_builtin_scalar = false
    ∧ (c2Schema.object_types.lookup "Obj").isSome = true :=
  ⟨by rfl, by rfl, by rfl⟩

/-- C2 witness: a concrete run discharging `claim_C2`'s hypothesis — the
scalar field `x` of `Obj` converts with `selection_set = none`. -/
theorem claim_C2_witness :
    from_ast (AstSelection.field none "x" none (some [])) (FieldType.named "Obj") c2Schema 0
      = Except.ok (some (Selection.Field "x" none none FieldType.string Skip.No Include.Yes))
    ∧ ((none : Option (List Selection)) = none
        ↔ (FieldType.string.is_builtin_scalar = true
            ∨ (some [] : Option (List AstSelection)) = none)) :=
  ⟨by rfl,
   claim_C2 none "x" none (some ([] : List AstSelection)) (FieldType.named "Obj") c2Schema 0
     "x" none none FieldType.string Skip.No Include.Yes (by rfl)⟩

/-- C1 (amended): every `from_ast` call whose depth counter exceeds 512
returns `RecursionLimitExceeded` immediately (so conversion work never
happens at a counter beyond the limit), and on ASTs whose deepest path is
actually traversed — here the inline-fragment towers — the conversion
started at counter `c` fails with `RecursionLimitExceeded` exactly when
`c` plus the number of nested selection sets below the root exceeds 512.
(The original claim — depth > 512 always yields `RecursionLimitExceeded` —
fails when the deep subtree is statically skipped; see the counterexample.) -/
theorem claim_C1 :
    (∀ (sel : AstSelection) (t : FieldType) (s : Schema) (c : Nat),
        RECURSION_LIMIT < c →
        from_ast sel t s c = Except.error SpecError.RecursionLimitExceeded)
    ∧ (∀ (t : FieldType) (s : Schema) (c n : Nat),
        (from_ast (towerIF n) t s c = Except.error SpecError.RecursionLimitExceeded
          ↔ RECURSION_LIMIT < c + n)) := by
  constructor
  · exact fun sel t s c h => from_ast_guard sel t s c h
  · intro t s c n
    rcases from_ast_towerIF n c t s with ⟨hgt, herr⟩ | ⟨hle, sel, hok⟩
    · exact ⟨fun _ => hgt, fun _ => herr⟩
    · constructor
      · intro he
        rw [hok] at he
        exact Except.noConfusion he
      · intro hgt
        exact absurd (show 512 < c + n from hgt) (by omega)

/-- C1 witness: a call at counter 513 fails immediately with
`RecursionLimitExceeded`. -/
theorem claim_C1_witness :
    RECURSION_LIMIT < 513 ∧
    from_ast (AstSelection.fragmentSpread "f" none) (FieldType.named "Q") emptySchema 513
      = Except.error SpecError.RecursionLimitExceeded :=
  ⟨by decide, claim_C1.1 _ _ _ 513 (by decide)⟩

set_option maxRecDepth 4000 in
/-- C1 counterexample: `deepSkippedField` has nesting depth 601 > 512, yet
`from_ast` returns `Ok(None)` (statically skipped), not
`RecursionLimitExceeded` — at initial counter 0 and also at 1. -/
theorem claim_C1_counterexample :
    512 < deepSkippedField.depth
    ∧ from_ast deepSkippedField (FieldType.named "Q") emptySchema 0 = Except.ok none
    ∧ from_ast deepSkippedField (FieldType.named "Q") emptySchema 1 = Except.ok none := by
  refine ⟨?_, by rfl, by rfl⟩
  rw [show deepSkippedField
      = AstSelection.field none "a" (some [skipTrueDirective]) (some [towerIF 599]) from rfl,
    depth_field_some, depth_list_cons, depth_towerIF]
  simp [depth_list]

/-- C8: for every selection variant, if the parsed `@skip` condition is
the literal `true` or the parsed `@include` condition is the literal
`false`, `from_ast` returns `Ok(None)`; the result is independent of the
(arbitrary, possibly deep or invalid) child selections, which shows the
short-circuit fires before any child is converted. -/
theorem claim_C8 (sel : AstSelection) (t : FieldType) (s : Schema) (c : Nat)
    (hc : c ≤ RECURSION_LIMIT)
    (h : (directives_skip sel.directives).statically_skipped = true ∨
         (directives_include sel.directives).statically_skipped = true) :
    from_ast sel t s c = Except.ok none := by
  have hguard : ¬ (RECURSION_LIMIT < c) := Nat.not_lt.mpr hc
  cases sel with
  | field a nm ds ss =>
    simp only [AstSelection.directives] at h
    cases ss with
    | none =>
      rw [from_ast_field_none_eq, if_neg hguard]
      rcases h with h | h
      · simp [h]
      · by_cases hs : (directives_skip ds).statically_skipped <;> simp [h, hs]
    | some sels =>
      rw [from_ast_field_some_eq, if_neg hguard]
      rcases h with h | h
      · simp [h]
      · by_cases hs : (directives_skip ds).statically_skipped <;> simp [h, hs]
  | inlineFragment tc ds ss =>
    simp only [AstSelection.directives] at h
    rw [from_ast_inline_eq, if_neg hguard]
    rcases h with h | h
    · simp [h]
    · by_cases hs : (directives_skip ds).statically_skipped <;> simp [h, hs]
  | fragmentSpread nm ds =>
    simp only [AstSelection.directives] at h
    rw [from_ast_spread_eq, if_neg hguard]
    rcases h with h | h
    · simp [h]
    · by_cases hs : (directives_skip ds).statically_skipped <;> simp [h, hs]

/-- C8 witness: a field annotated `@include(if: false)` over a 551-level
subtree converts to `Ok(None)` without the subtree ever being built. -/
theorem claim_C8_witness :
    (0 ≤ RECURSION_LIMIT
      ∧ (directives_include (AstSelection.field none "a" (some [includeFalseDirective])
          (some [towerIF 550])).directives).statically_skipped = true)
    ∧ from_ast (AstSelection.field none "a" (some [includeFalseDirective]) (some [towerIF 550]))
        (FieldType.named "Q") emptySchema 0 = Except.ok none :=
  ⟨⟨by decide, by decide⟩,
   claim_C8 _ _ emptySchema 0 (by decide) (Or.inr (by decide))⟩

/-! ## Claim C3 — header codec round-trip -/

lemma appendHeaderValues_ok (k : String) (vs : List String)
    (hk : isValidHeaderName k = true) (hv : vs.all isValidHeaderValue = true) :
    appendHeaderValues k vs = Except.ok (vs.map (fun v => (k, v))) := by
  induction vs with
  | nil => rfl
  | cons v rest ih =>
    simp only [List.all_cons, Bool.and_eq_true] at hv
    simp [appendHeaderValues, hk, hv.1, ih hv.2]

lemma internalize_ok (m : List (String × List String)) (hw : wfMM m = true) :
    internalize_header_map m = Except.ok (flattenMM m) := by
  induction m with
  | nil => rfl
  | cons kvs rest ih =>
    obtain ⟨k, vs⟩ := kvs
    simp only [wfMM, List.all_cons, Bool.and_eq_true] at hw
    obtain ⟨⟨hk, hv⟩, hrest⟩ := hw
    simp [internalize_header_map, appendHeaderValues_ok k vs hk hv, ih hrest, flattenMM]

lemma getAll_append (a b : List (String × String)) (k : String) :
    getAll (a ++ b) k = getAll a k ++ getAll b k := by
  induction a with
  | nil => simp [getAll]
  | cons kv rest ih =>
    obtain ⟨k0, v⟩ := kv
    by_cases hk : k0 == k <;> simp [getAll, hk, ih]

lemma getAll_label (k0 k : String) (vs : List String) :
    getAll (vs.map (fun v => (k0, v))) k = if k0 == k then vs else [] := by
  induction vs with
  | nil => simp [getAll]
  | cons v rest ih =>
    by_cases hk : k0 == k <;> simp [getAll, hk] at ih ⊢ <;> simp [ih]

lemma lookupVs_pushEntry_self (m : List (String × List String)) (k v : String) :
    lookupVs (pushEntry m k v) k = lookupVs m k ++ [v] := by
  induction m with
  | nil => simp [pushEntry, lookupVs, List.lookup]
  | cons kvs rest ih =>
    obtain ⟨k0, vs⟩ := kvs
    by_cases hk : k0 == k
    · have hk2 : (k == k0) = true := by simp_all [BEq.comm]
      simp [pushEntry, hk, lookupVs, List.lookup, hk2]
    · have hk2 : (k == k0) = false := by simp_all [BEq.comm]
      simp only [pushEntry, hk, if_false, Bool.false_eq_true, lookupVs, List.lookup, hk2] at ih ⊢
      simpa using ih

lemma lookupVs_pushEntry_other (m : List (String × List String)) (k v k2 : String)
    (hne : (k2 == k) = false) :
    lookupVs (pushEntry m k v) k2 = lookupVs m k2 := by
  induction m with
  | nil =>
    simp [pushEntry, lookupVs, List.lookup, hne]
  | cons kvs rest ih =>
    obtain ⟨k0, vs⟩ := kvs
    by_cases hk : k0 == k
    · have hk2 : (k2 == k0) = false := by
        have h1 : k0 = k := by simpa using hk
        subst h1
        exact hne
      simp [pushEntry, hk, lookupVs, List.lookup, hk2]
    · by_cases hk0 : k2 == k0
      · simp [pushEntry, hk, lookupVs, List.lookup, hk0]
      · simp [pushEntry, hk, lookupVs, List.lookup, hk0] at ih ⊢
        exact ih

lemma lookupVs_foldl (h : List (String × String)) :
    ∀ (m : List (String × List String)) (k : String),
    lookupVs (h.foldl (fun output kv => pushEntry output kv.1 kv.2) m) k
      = lookupVs m k ++ getAll h k := by
  induction h with
  | nil => intro m k; simp [getAll]
  | cons kv rest ih =>
    intro m k
    obtain ⟨k0, v⟩ := kv
    simp only [List.foldl_cons]
    rw [ih]
    by_cases hk : k0 == k
    · have h1 : k0 = k := by simpa using hk
      subst h1
      rw [lookupVs_pushEntry_self]
      simp [getAll]
    · have hne : (k == k0) = false := by simp_all [BEq.comm]
      rw [lookupVs_pushEntry_other _ _ _ _ hne]
      simp [getAll, hk]

lemma mem_keysMM_pushEntry (m : List (String × List String)) (k v k2 : String) :
    k2 ∈ keysMM (pushEntry m k v) ↔ (k2 ∈ keysMM m ∨ k2 = k) := by
  induction m with
  | nil => simp [pushEntry, keysMM]
  | cons kvs rest ih =>
    obtain ⟨k0, vs⟩ := kvs
    by_cases hk : k0 == k
    · have h1 : k0 = k := by simpa using hk
      subst h1
      simp [pushEntry, keysMM]
      tauto
    · simp [pushEntry, hk, keysMM] at ih ⊢
      tauto

lemma nodup_keysMM_pushEntry (m : List (String × List String)) (k v : String)
    (hnd : (keysMM m).Nodup) : (keysMM (pushEntry m k v)).Nodup := by
  induction m with
  | nil => simp [pushEntry, keysMM]
  | cons kvs rest ih =>
    obtain ⟨k0, vs⟩ := kvs
    simp only [keysMM, List.map_cons, List.nodup_cons] at hnd
    by_cases hk : k0 == k
    · simp [pushEntry, hk, keysMM, List.nodup_cons]
      exact ⟨by simpa [keysMM] using hnd.1, by simpa [keysMM] using hnd.2⟩
    · simp only [pushEntry, hk, Bool.false_eq_true, if_false, keysMM, List.map_cons,
        List.nodup_cons]
      constructor
      · rw [show List.map Prod.fst (pushEntry rest k v) = keysMM (pushEntry rest k v) from rfl]
        rw [mem_keysMM_pushEntry]
        push_neg
        exact ⟨by simpa [keysMM] using hnd.1, by simpa using hk⟩
      · exact ih (by simpa [keysMM] using hnd.2)

lemma nodup_keysMM_foldl (h : List (String × String)) :
    ∀ (m : List (String × List String)), (keysMM m).Nodup →
    (keysMM (h.foldl (fun output kv => pushEntry output kv.1 kv.2) m)).Nodup := by
  induction h with
  | nil => intro m hm; simpa using hm
  | cons kv rest ih =>
    intro m hm
    simp only [List.foldl_cons]
    exact ih _ (nodup_keysMM_pushEntry m kv.1 kv.2 hm)

lemma getAll_flattenMM_not_mem (m : List (String × List String)) (k : String)
    (hk : k ∉ keysMM m) : getAll (flattenMM m) k = [] := by
  induction m with
  | nil => simp [flattenMM, getAll]
  | cons kvs rest ih =>
    obtain ⟨k0, vs⟩ := kvs
    simp only [keysMM, List.map_cons, List.mem_cons, not_or] at hk
    have hne : (k0 == k) = false := by
      simp only [beq_eq_false_iff_ne, ne_eq]
      exact fun hcontra => hk.1 (hcontra ▸ rfl)
    rw [flattenMM, getAll_append, getAll_label, hne]
    simp [ih (by simpa [keysMM] using hk.2)]

lemma getAll_flattenMM (m : List (String × List String)) (k : String)
    (hnd : (keysMM m).Nodup) : getAll (flattenMM m) k = lookupVs m k := by
  induction m with
  | nil => simp [flattenMM, getAll, lookupVs, List.lookup]
  | cons kvs rest ih =>
    obtain ⟨k0, vs⟩ := kvs
    simp only [keysMM, List.map_cons, List.nodup_cons] at hnd
    rw [flattenMM, getAll_append, getAll_label]
    by_cases hk : k0 == k
    · have h1 : k0 = k := by simpa using hk
      have hnm : k ∉ keysMM rest := by
        rw [← h1]
        simpa [keysMM] using hnd.1
      rw [getAll_flattenMM_not_mem rest k hnm]
      simp [lookupVs, List.lookup, h1]
    · have hk2 : (k == k0) = false := by
        simp only [beq_eq_false_iff_ne, ne_eq]
        intro hcontra
        exact absurd (by simp [hcontra] : (k0 == k) = true) (by simpa using hk)
      rw [ih (by simpa [keysMM] using hnd.2)]
      simp [hk, lookupVs, List.lookup, hk2]

lemma wfMM_pushEntry (m : List (String × List String)) (k v : String)
    (hm : wfMM m = true) (hk : isValidHeaderName k = true)
    (hv : isValidHeaderValue v = true) : wfMM (pushEntry m k v) = true := by
  induction m with
  | nil => simp [pushEntry, wfMM, hk, hv]
  | cons kvs rest ih =>
    obtain ⟨k0, vs⟩ := kvs
    simp only [wfMM, List.all_cons, Bool.and_eq_true] at hm
    by_cases hkk : k0 == k
    · simp [pushEntry, hkk, wfMM, List.all_cons, hm.1.1, hm.2, List.all_append, hv,
        hm.1.2]
    · simp only [pushEntry, hkk, Bool.false_eq_true, if_false, wfMM, List.all_cons,
        Bool.and_eq_true]
      exact ⟨⟨hm.1.1, hm.1.2⟩, ih hm.2⟩

lemma wfMM_foldl (h : List (String × String)) :
    ∀ (m : List (String × List String)), wfMM m = true →
    wellFormedHeaderMap h = true →
    wfMM (h.foldl (fun output kv => pushEntry output kv.1 kv.2) m) = true := by
  induction h with
  | nil => intro m hm _; simpa using hm
  | cons kv rest ih =>
    intro m hm hw
    simp only [wellFormedHeaderMap, List.all_cons, Bool.and_eq_true] at hw
    simp only [List.foldl_cons]
    exact ih _ (wfMM_pushEntry m kv.1 kv.2 hm hw.1.1 hw.1.2) hw.2

/-- C3: for every header map `H` (values valid UTF-8 — absorbed by the
`String` embedding — and entries wellformed, as any native `HeaderMap`
guarantees), `internalize_header_map (externalize_header_map H)` succeeds
and the result equals `H` as a `HeaderMap`: the ordered value list of
every header name is preserved, multi-valued names included. -/
theorem claim_C3 (h : List (String × String)) (hw : wellFormedHeaderMap h = true) :
    ∃ h2, internalize_header_map (externalize_header_map h) = Except.ok h2
      ∧ ∀ k, getAll h2 k = getAll h k := by
  have hwf : wfMM (externalize_header_map h) = true := wfMM_foldl h [] (by rfl) hw
  refine ⟨flattenMM (externalize_header_map h), internalize_ok _ hwf, ?_⟩
  intro k
  have hnd : (keysMM (externalize_header_map h)).Nodup :=
    nodup_keysMM_foldl h [] (by simp [keysMM])
  rw [getAll_flattenMM _ _ hnd]
  rw [show externalize_header_map h
      = h.foldl (fun output kv => pushEntry output kv.1 kv.2) [] from rfl,
    lookupVs_foldl]
  simp [lookupVs, List.lookup]

/-- C3 witness: the round-trip on a concrete three-entry map with a
repeated name. -/
theorem claim_C3_witness :
    wellFormedHeaderMap [("accept", "a"), ("x-test", "1"), ("accept", "b")] = true
    ∧ ∃ h2, internalize_header_map (externalize_header_map
          [("accept", "a"), ("x-test", "1"), ("accept", "b")]) = Except.ok h2
        ∧ ∀ k, getAll h2 k = getAll [("accept", "a"), ("x-test", "1"), ("accept", "b")] k :=
  ⟨by decide, claim_C3 [("accept", "a"), ("x-test", "1"), ("accept", "b")] (by decide)⟩

/-! ## Claims C4, C5, C6, C7, C9, C10 — coprocessor and execution stages -/

lemma ends_with_rr : ends_with "RouterRequest" "Request" = true := by decide
lemma ends_with_rresp : ends_with "RouterResponse" "Request" = false := by decide
lemma ends_with_sr : ends_with "SubgraphRequest" "Request" = true := by decide
lemma ends_with_sresp : ends_with "SubgraphResponse" "Request" = false := by decide

/-- C4: `validate_coprocessor_output` succeeds exactly when the envelope
version equals the build constant, the stage string equals the stage the
envelope was sent for, and — at the `RouterRequest` and `SubgraphRequest`
stages — `control` is present; it fails (returns an error) otherwise. -/
theorem claim_C4 {Ctx : Type} (o : Externalizable Ctx) (s : PipelineStep) :
    validate_coprocessor_output o s = Except.ok () ↔
      (o.version = EXTERNALIZABLE_VERSION ∧ o.stage = s.toString
        ∧ (s.isRequest = true → o.control ≠ none)) := by
  by_cases hv : o.version = EXTERNALIZABLE_VERSION
  · by_cases hs : o.stage = s.toString
    · cases s <;>
        simp only [validate_coprocessor_output, hv, hs, PipelineStep.toString,
          PipelineStep.isRequest, bne_self_eq_false, Bool.false_eq_true, if_false,
          ends_with_rr, ends_with_rresp, ends_with_sr, ends_with_sresp,
          Bool.and_true, Bool.and_false] <;>
        cases hc : o.control <;>
        simp [hv, hs, hc]
    · have hbne : (o.stage != s.toString) = true := by simp [bne_iff_ne, hs]
      simp [validate_coprocessor_output, hv, hbne, hs]
  · have hbne : (o.version != EXTERNALIZABLE_VERSION) = true := by simp [bne_iff_ne, hv]
    simp [validate_coprocessor_output, hbne, hv]

/-- C4 witness: a concrete minimal valid reply validates at the
RouterRequest stage. -/
theorem claim_C4_witness :
    validate_coprocessor_output (minimalReply Unit "RouterRequest" (some Control.Continue))
        PipelineStep.RouterRequest = Except.ok () :=
  (claim_C4 (minimalReply Unit "RouterRequest" (some Control.Continue))
    PipelineStep.RouterRequest).mpr
    ⟨by rfl, by rfl, fun _ => by simp [minimalReply]⟩

/-- C9: `ExecutionService::call` never yields an error — for every
`PlannedRequest` the future resolves to `Ok` with a `RouterResponse`
(`plan.execute` produces a body directly, so the stage has no error
path). -/
theorem claim_C9 {Ctx Reg Sch Body : Type} (self : core.ExecutionService Ctx Reg Sch Body)
    (req : core.PlannedRequest Ctx Reg Sch Body) :
    ∃ res, core.ExecutionService.call self req = Except.ok res :=
  ⟨_, rfl⟩

/-- C6: the response produced by `ExecutionService::call` has a body
equal to the value produced by `plan.execute` and carries the very same
context object that arrived with the request — the stage builds the
response from exactly these two pieces and nothing else, so the context
is unchanged and nothing is merged from downstream. -/
theorem claim_C6 {Ctx Reg Sch Body : Type} (self : core.ExecutionService Ctx Reg Sch Body)
    (req : core.PlannedRequest Ctx Reg Sch Body) :
    core.ExecutionService.call self req = Except.ok
      { response := core.HttpResponse.new
          (req.query_plan.execute req.context self.subgraph_services self.schema)
        context := req.context } :=
  rfl

/-- C7: with the body flag set, a request body that fails to parse as
JSON is tolerated — the envelope is sent with a null body and the stage
completes without error — while at the RouterResponse stage a response
body that fails to parse makes the stage fail for every possible
coprocessor, before the coprocessor is even called. -/
theorem claim_C7 {β Ctx : Type} (codec : JsonCodec β) (sdl : String)
    (request : RouterRequest β Ctx) (cfg : RouterRequestConf)
    (response : RouterResponse β Ctx) (cfg2 : RouterResponseConf)
    (hreqflag : cfg.body = true) (hreqparse : codec.parse request.body = none)
    (hrespflag : cfg2.body = true) (hrespparse : codec.parse response.body = none) :
    (routerRequestPayload codec sdl request cfg).body = none
    ∧ process_router_request_stage codec
        (fun _ => Except.ok (minimalReply Ctx PipelineStep.RouterRequest.toString
          (some Control.Continue))) sdl request cfg
        = Except.ok (CoControlFlow.Continue request)
    ∧ ∀ http_client, ∃ e,
        process_router_response_stage codec http_client sdl response cfg2 = Except.error e := by
  refine ⟨?_, ?_, ?_⟩
  · simp [routerRequestPayload, hreqflag, hreqparse]
  · rfl
  · intro http_client
    refine ⟨"failed to parse the response body as JSON", ?_⟩
    simp [process_router_response_stage, hrespflag, hrespparse]

/-- C5: at the RouterRequest stage, a reply carrying `control = Break`
with a usable status and a body that does not deserialize as a GraphQL
response short-circuits (`ControlFlow::Break`, so the downstream stage is
not called) with a synthesized response whose status is the Break status
and whose body is the serialized substitute GraphQL response holding a
single error of extension code `EXERNAL_DESERIALIZATION_ERROR`. -/
theorem claim_C5 {β Ctx : Type} (codec : JsonCodec β) (sdl : String)
    (request : RouterRequest β Ctx) (cfg : RouterRequestConf)
    (reply : Externalizable Ctx) (st : Option Nat) (code : Nat)
    (hv : reply.version = EXTERNALIZABLE_VERSION)
    (hs : reply.stage = PipelineStep.RouterRequest.toString)
    (hc : reply.control = some (Control.Break st))
    (hcode : Control.get_http_status (Control.Break st) = Except.ok code)
    (hbody : graphqlResponseFromJson (reply.body.getD Json.null) = none)
    (hh : (match reply.headers with
           | some hs2 => (internalize_header_map hs2).isOk
           | none => true) = true) :
    ∃ res, process_router_request_stage codec (fun _ => Except.ok reply) sdl request cfg
        = Except.ok (CoControlFlow.Break res)
      ∧ res.status = code
      ∧ res.body = codec.render deserialization_failure_response.toJson
      ∧ deserialization_failure_response.errors.map (fun e => e.extensions.lookup "code")
          = [some (Json.str "EXERNAL_DESERIALIZATION_ERROR")] := by
  have hval : validate_coprocessor_output reply PipelineStep.RouterRequest = Except.ok () := by
    simp [validate_coprocessor_output, hv, hs, hc]
  cases hh2 : reply.headers with
  | none =>
    cases hctx : reply.context with
    | none =>
      refine ⟨build_router_response_from_graphql codec code deserialization_failure_response
        request.context, ?_, rfl, rfl, rfl⟩
      simp only [process_router_request_stage, hval, hc, hcode, hbody, hh2, hctx]
    | some c2 =>
      refine ⟨{ build_router_response_from_graphql codec code deserialization_failure_response
        request.context with context := c2 }, ?_, rfl, rfl, rfl⟩
      simp only [process_router_request_stage, hval, hc, hcode, hbody, hh2, hctx]
  | some hs2 =>
    rw [hh2] at hh
    cases hint : internalize_header_map hs2 with
    | error e => simp [hint, Except.isOk, Except.toBool] at hh
    | ok hm =>
      cases hctx : reply.context with
      | none =>
        refine ⟨{ build_router_response_from_graphql codec code deserialization_failure_response
          request.context with headers := hm }, ?_, rfl, rfl, rfl⟩
        simp only [process_router_request_stage, hval, hc, hcode, hbody, hh2, hctx, hint]
      | some c2 =>
        refine ⟨{ build_router_response_from_graphql codec code deserialization_failure_response
          request.context with headers := hm, context := c2 }, ?_, rfl, rfl, rfl⟩
        simp only [process_router_request_stage, hval, hc, hcode, hbody, hh2, hctx, hint]

/-- C10: at the RouterRequest stage with `control = Continue`, body,
headers and context present in the reply replace those of the in-flight
request even when the corresponding send-filter flags are all false; the
flags only control what is sent (the corresponding payload fields are
null). -/
theorem claim_C10 {β Ctx : Type} (codec : JsonCodec β) (sdl : String)
    (request : RouterRequest β Ctx) (cfg : RouterRequestConf)
    (v : Json) (hs2 : List (String × List String)) (c2 : Ctx) (hm : List (String × String))
    (hflag_h : cfg.headers = false) (hflag_b : cfg.body = false) (hflag_c : cfg.context = false)
    (hint : internalize_header_map hs2 = Except.ok hm) :
    process_router_request_stage codec
      (fun _ => Except.ok
        { version := EXTERNALIZABLE_VERSION
          stage := PipelineStep.RouterRequest.toString
          control := some Control.Continue
          id := none
          headers := some hs2
          body := some v
          context := some c2
          sdl := none
          uri := none
          path := none
          method := none
          service_name := none
          status_code := none }) sdl request cfg
      = Except.ok (CoControlFlow.Continue
          { request with body := codec.render v, context := c2, headers := hm })
    ∧ (routerRequestPayload codec sdl request cfg).headers = none
    ∧ (routerRequestPayload codec sdl request cfg).body = none
    ∧ (routerRequestPayload codec sdl request cfg).context = none := by
  refine ⟨?_, ?_, ?_, ?_⟩
  · simp only [process_router_request_stage, hint]
    rfl
  · simp [routerRequestPayload, hflag_h]
  · simp [routerRequestPayload, hflag_b]
  · simp [routerRequestPayload, hflag_c]

/-- C5 witness: `Break(418)` with body `42` (spec §8 scenario 6). -/
theorem claim_C5_witness :
    graphqlResponseFromJson (breakReply42.body.getD Json.null) = none
    ∧ ∃ res, process_router_request_stage optionJsonCodec (fun _ => Except.ok breakReply42)
          "" sampleRequest RouterRequestConf.default
        = Except.ok (CoControlFlow.Break res)
      ∧ res.status = 418
      ∧ res.body = optionJsonCodec.render deserialization_failure_response.toJson
      ∧ deserialization_failure_response.errors.map (fun e => e.extensions.lookup "code")
          = [some (Json.str "EXERNAL_DESERIALIZATION_ERROR")] :=
  ⟨by rfl,
   claim_C5 optionJsonCodec "" sampleRequest RouterRequestConf.default breakReply42
     (some 418) 418 (by rfl) (by rfl) (by rfl) (by rfl) (by rfl) (by rfl)⟩

/-- C7 witness: unparseable bodies at both stages, concretely. -/
theorem claim_C7_witness :
    (bodyOnlyRequestConf.body = true ∧ optionJsonCodec.parse sampleRequest.body = none)
    ∧ (routerRequestPayload optionJsonCodec "" sampleRequest bodyOnlyRequestConf).body = none
    ∧ process_router_request_stage optionJsonCodec
        (fun _ => Except.ok (minimalReply Unit PipelineStep.RouterRequest.toString
          (some Control.Continue))) "" sampleRequest bodyOnlyRequestConf
        = Except.ok (CoControlFlow.Continue sampleRequest)
    ∧ ∀ http_client, ∃ e,
        process_router_response_stage optionJsonCodec http_client "" sampleResponse
          bodyOnlyResponseConf = Except.error e :=
  ⟨⟨by rfl, by rfl⟩,
   claim_C7 optionJsonCodec "" sampleRequest bodyOnlyRequestConf sampleResponse
     bodyOnlyResponseConf (by rfl) (by rfl) (by rfl) (by rfl)⟩

/-- C10 witness: a concrete Continue reply mutating body, headers and
context of a request sent with the all-false default configuration. -/
theorem claim_C10_witness :
    (RouterRequestConf.default.headers = false
      ∧ RouterRequestConf.default.body = false
      ∧ RouterRequestConf.default.context = false
      ∧ internalize_header_map [("a", ["1"])] = Except.ok [("a", "1")])
    ∧ process_router_request_stage optionJsonCodec
        (fun _ => Except.ok
          { version := EXTERNALIZABLE_VERSION
            stage := PipelineStep.RouterRequest.toString
            control := some Control.Continue
            id := none
            headers := some [("a", ["1"])]
            body := some Json.null
            context := some ()
            sdl := none
            uri := none
            path := none
            method := none
            service_name := none
            status_code := none }) "" sampleRequest RouterRequestConf.default
        = Except.ok (CoControlFlow.Continue
            { sampleRequest with
                body := optionJsonCodec.render Json.null
                context := ()
                headers := [("a", "1")] })
    ∧ (routerRequestPayload optionJsonCodec "" sampleRequest RouterRequestConf.default).headers
        = none
    ∧ (routerRequestPayload optionJsonCodec "" sampleRequest RouterRequestConf.default).body
        = none
    ∧ (routerRequestPayload optionJsonCodec "" sampleRequest RouterRequestConf.default).context
        = none :=
  ⟨⟨by rfl, by rfl, by rfl, by rfl⟩,
   (claim_C10 optionJsonCodec "" sampleRequest RouterRequestConf.default Json.null
     [("a", ["1"])] () [("a", "1")] (by rfl) (by rfl) (by rfl) (by rfl)).1,
   (claim_C10 optionJsonCodec "" sampleRequest RouterRequestConf.default Json.null
     [("a", ["1"])] () [("a", "1")] (by rfl) (by rfl) (by rfl) (by rfl)).2.1,
   (claim_C10 optionJsonCodec "" sampleRequest RouterRequestConf.default Json.null
     [("a", ["1"])] () [("a", "1")] (by rfl) (by rfl) (by rfl) (by rfl)).2.2.1,
   (claim_C10 optionJsonCodec "" sampleRequest RouterRequestConf.default Json.null
     [("a", ["1"])] () [("a", "1")] (by rfl) (by rfl) (by rfl) (by rfl)).2.2.2⟩
